import Mathlib

/-!
Shallow embedding of the dictionary-knowledge subsystem of the ijma repository
(src/source/src/jma_knowledge.cpp, jma_ctype_sjis.cpp, knowledge.cpp), with
theorems settling the frozen claims about it.

Conventions:
* C byte strings are `List Nat` (the bytes up to, excluding, the terminating
  null; reading past the end yields the terminator 0 via `List.getD`).
* Text lines already split by `getline` are `List Char` / `List (List Char)`.
* A C `assert` is modelled as an `Option`/dedicated constructor: `none` (or a
  fatal constructor) means the assertion fired.
* `std::map` is an association list updated with overwrite semantics.
-/

namespace IJMA

/-- Byte-count classifier of `JMA_CType_SJIS::getByteCount`
(src/source/src/jma_ctype_sjis.cpp lines 32-45): 0 at a terminating null,
1 for a lead byte below 0x80, otherwise 2 — after `assert(uc[1])`, modelled
as `none` when the byte after a multi-byte lead is the terminator. -/
def getByteCountSJIS (bs : List Nat) : Option Nat :=
  if bs.getD 0 0 = 0 then some 0
  else if bs.getD 0 0 < 128 then some 1
  else if bs.getD 1 0 = 0 then none
  else some 2

/-- The per-byte-width sentence-separator sets `seps_[1] .. seps_[4]`
used by JMA_Knowledge (the container lives in the base class; only widths
1..4 are ever touched by the code in src). -/
structure SepSets where
  s1 : Finset Nat
  s2 : Finset Nat
  s3 : Finset Nat
  s4 : Finset Nat
deriving DecidableEq

/-- The freshly constructed knowledge instance has no separators loaded. -/
def SepSets.empty : SepSets := ⟨∅, ∅, ∅, ∅⟩

/-- Insertion `seps_[w].insert(v)` for w in 1..4. -/
def SepSets.insertAt (st : SepSets) (w : Nat) (v : Nat) : SepSets :=
  match w with
  | 1 => { st with s1 := insert v st.s1 }
  | 2 => { st with s2 := insert v st.s2 }
  | 3 => { st with s3 := insert v st.s3 }
  | 4 => { st with s4 := insert v st.s4 }
  | _ => st

/-- Big-endian packing of the first `w` bytes, mirroring the shift-or
expressions `uc[0] << 8 | uc[1]` (etc.) of jma_knowledge.cpp. -/
def packBytes (bs : List Nat) (w : Nat) : Nat :=
  match w with
  | 1 => bs.getD 0 0
  | 2 => bs.getD 0 0 * 256 + bs.getD 1 0
  | 3 => bs.getD 0 0 * 65536 + bs.getD 1 0 * 256 + bs.getD 2 0
  | 4 => bs.getD 0 0 * 16777216 + bs.getD 1 0 * 65536 + bs.getD 2 0 * 256 + bs.getD 3 0
  | _ => 0

/-- Outcome of `JMA_Knowledge::isSentenceSeparator`: either a boolean answer,
or one of the two fatal assertions — the one inside the character
classifier (`ctypeFatal`), or the `default: assert(false)` branch of the
switch on the byte count (`lenFatal`). -/
inductive SepOutcome where
  | ctypeFatal
  | lenFatal
  | result (b : Bool)
deriving DecidableEq

/-- Embedding of `JMA_Knowledge::isSentenceSeparator`
(src/source/src/jma_knowledge.cpp lines 838-858): classify the code point at
the start of the byte string by width via the active character classifier
`bc`, then membership-test the width-appropriate separator set. -/
def isSentenceSeparator (bc : List Nat → Option Nat) (st : SepSets) (bs : List Nat) :
    SepOutcome :=
  match bc bs with
  | none => SepOutcome.ctypeFatal
  | some 1 => SepOutcome.result (decide (packBytes bs 1 ∈ st.s1))
  | some 2 => SepOutcome.result (decide (packBytes bs 2 ∈ st.s2))
  | some 3 => SepOutcome.result (decide (packBytes bs 3 ∈ st.s3))
  | some 4 => SepOutcome.result (decide (packBytes bs 4 ∈ st.s4))
  | some _ => SepOutcome.lenFatal

/-- Strip from the first carriage return on, mirroring
`line.substr(0, line.find(0x0d))` on byte strings. -/
def stripCRBytes (l : List Nat) : List Nat := l.takeWhile (fun b => !(b == 13))

/-- Processing of one line of the sentence-separator configuration file
(body of the while loop of `JMA_Knowledge::loadSentenceSeparatorConfig`,
src/source/src/jma_knowledge.cpp lines 887-916): strip the carriage return,
skip empty lines and lines starting with the comment byte 35 (the
character), otherwise insert the packed code point into the set of its byte
width; a byte count outside 1..4 hits `assert(false)` (`none`). -/
def loadSepLine (bc : List Nat → Option Nat) (st : SepSets) (line : List Nat) :
    Option SepSets :=
  let l := stripCRBytes line
  if l.isEmpty || (l.getD 0 0 == 35) then some st
  else
    match bc l with
    | some 1 => some (st.insertAt 1 (packBytes l 1))
    | some 2 => some (st.insertAt 2 (packBytes l 2))
    | some 3 => some (st.insertAt 3 (packBytes l 3))
    | some 4 => some (st.insertAt 4 (packBytes l 4))
    | _ => none

/-- Embedding of `JMA_Knowledge::loadSentenceSeparatorConfig`
(src/source/src/jma_knowledge.cpp lines 877-919) over the file already read
as a list of lines. Note that the function only ever inserts into the
incoming separator sets `st`; it never clears them. -/
def loadSentenceSeparatorConfig (bc : List Nat → Option Nat) (st : SepSets) :
    List (List Nat) → Option SepSets
  | [] => some st
  | line :: rest =>
    match loadSepLine bc st line with
    | none => none
    | some st2 => loadSentenceSeparatorConfig bc st2 rest

/-- Loop of `JMA_Knowledge::getOccupiedBytes`
(src/source/src/jma_knowledge.cpp lines 867-872): while any of bits 8..31 is
set, shift the value right by FOUR bits and bump the counter. -/
def occupiedLoop (val ret : Nat) : Nat :=
  if h : val &&& 0xffffff00 ≠ 0 then occupiedLoop (val >>> 4) (ret + 1) else ret
termination_by val
decreasing_by
  have hv : val ≠ 0 := by
    intro h0
    exact h (by simp [h0])
  simpa [Nat.shiftRight_eq_div_pow] using
    Nat.div_lt_self (Nat.pos_of_ne_zero hv) (by norm_num)

/-- Embedding of `JMA_Knowledge::getOccupiedBytes`
(src/source/src/jma_knowledge.cpp lines 865-875), including its trailing
`assert(ret > 0 && ret < 4)`, modelled as `none` when the assertion fires. -/
def getOccupiedBytes (val : Nat) : Option Nat :=
  if 0 < occupiedLoop val 1 ∧ occupiedLoop val 1 < 4 then some (occupiedLoop val 1) else none

/-- Embedding of `JMA_Knowledge::addSentenceSeparator`
(src/source/src/jma_knowledge.cpp lines 860-863): insert the value into the
separator set of the width computed by `getOccupiedBytes` (whose assertion
propagates as `none`). -/
def addSentenceSeparator (st : SepSets) (val : Nat) : Option SepSets :=
  (getOccupiedBytes val).map (fun w => st.insertAt w val)

/-- The occupied-byte count the specification describes: the smallest w in
1..4 such that the value fits in w bytes. -/
def minOccupiedBytes (val : Nat) : Nat :=
  if val < 256 then 1
  else if val < 65536 then 2
  else if val < 16777216 then 3
  else 4

/-- Embedding of `JMA_Knowledge::isKeywordPOS`
(src/source/src/jma_knowledge.cpp lines 650-656): an empty keyword-POS set
accepts every index, otherwise accept exactly the members. -/
def isKeywordPOS (keywordPOSSet : Finset Int) (pos : Int) : Bool :=
  if keywordPOSSet = ∅ then true
  else decide (pos ∈ keywordPOSSet)

/-- Modelled from the spec: the base-class member holding the keyword POS
set is declared in knowledge.h, which is not under src/; no operation in the
sources under src/ ever inserts into it, so a freshly constructed knowledge
instance carries the empty set. -/
def keywordPOSSetInit : Finset Int := ∅

/-- The C-locale whitespace set, as used by `isspace` and by stream
extraction in the configuration and user-dictionary parsers. -/
def isSpaceChar (c : Char) : Bool :=
  c == ' ' || c == '\t' || c == '\n' || c == '\x0b' || c == '\x0c' || c == '\r'

/-- Strip from the first carriage return on, mirroring
`line = line.substr(0, line.find(0x0d))` on character lines. -/
def stripCR (l : List Char) : List Char := l.takeWhile (fun c => !(c == '\r'))

/-- Model of `std::map<string, string>` as an association list; insertion
overwrites the entry of an existing key. -/
abbrev ConfigMap := List (List Char × List Char)

/-- Assignment `map[key] = value` with overwrite semantics. -/
def mapSet {β : Type} (m : List (List Char × β)) (k : List Char) (v : β) :
    List (List Char × β) :=
  if m.any (fun p => p.1 == k) then m.map (fun p => if p.1 == k then (k, v) else p)
  else m ++ [(k, v)]

/-- Embedding of the helper `getMapValue` (src/source/src/jma_knowledge.cpp
lines 171-177): the looked-up value, or nothing when the key is absent. -/
def getMapValue {β : Type} (m : List (List Char × β)) (k : List Char) : Option β :=
  (m.find? (fun p => p.1 == k)).map (fun p => p.2)

/-- Trailing-whitespace-stripped prefix before the character at `pos`,
mirroring the backward scan `for (s2 = pos-1; (long)s2 >= 0 && isspace(line[s2]); s2--)`
with `key = line.substr(0, s2 + 1)`. -/
def configKey (l : List Char) (pos : Nat) : List Char :=
  ((l.take pos).reverse.dropWhile isSpaceChar).reverse

/-- Leading-whitespace-stripped suffix after the character at `pos`,
mirroring `for (s1 = pos+1; s1 < line.size() && isspace(line[s1]); s1++)`
with `value = line.substr(s1, line.size() - s1)`. -/
def configValue (l : List Char) (pos : Nat) : List Char :=
  (l.drop (pos + 1)).dropWhile isSpaceChar

/-- Classification of one configuration line in `JMA_Knowledge::loadConfig0`:
skipped (blank or comment), structurally bad (no equal sign), or a
key/value pair. -/
inductive LineParse where
  | skip
  | bad
  | kv (k v : List Char)
deriving DecidableEq

/-- Body of the `while (getline)` loop of `JMA_Knowledge::loadConfig0`
(src/source/src/jma_knowledge.cpp lines 363-383): strip the carriage
return; blank lines and lines starting with a semicolon or hash are
ignored; a line without an equal sign is a format error; otherwise the key
is everything before the equal sign with trailing whitespace stripped and
the value everything after it with leading whitespace stripped. -/
def parseConfigLine (line : List Char) : LineParse :=
  if (stripCR line).isEmpty || (stripCR line).getD 0 ' ' == ';'
      || (stripCR line).getD 0 ' ' == '#' then
    LineParse.skip
  else
    match (stripCR line).findIdx? (fun c => c == '=') with
    | none => LineParse.bad
    | some pos =>
      LineParse.kv (configKey (stripCR line) pos) (configValue (stripCR line) pos)

/-- Embedding of `JMA_Knowledge::loadConfig0`
(src/source/src/jma_knowledge.cpp lines 348-386) over a file already read
as lines, threading the caller-supplied map: on the first line lacking an
equal sign it stops and reports failure, leaving in the map the pairs
inserted so far. -/
def loadConfig0 (m : ConfigMap) : List (List Char) → Bool × ConfigMap
  | [] => (true, m)
  | line :: rest =>
    match parseConfigLine line with
    | LineParse.skip => loadConfig0 m rest
    | LineParse.bad => (false, m)
    | LineParse.kv k v => loadConfig0 (mapSet m k v) rest

/-- Decimal value of a digit string, most significant digit first. -/
def digitsToNat (ds : List Char) : Nat :=
  ds.foldl (fun a c => a * 10 + (c.toNat - 48)) 0

/-- Test for a decimal digit. -/
def isDigitChar (c : Char) : Bool := '0' ≤ c && c ≤ '9'

/-- Digits-then-trailing-whitespace part of stream int extraction: fails
(default value 0) without a digit, with trailing garbage, or outside the
int range. -/
def convertFromStrIntCore (sign : Int) (t : List Char) : Int :=
  if (t.takeWhile isDigitChar).isEmpty then 0
  else if !(((t.dropWhile isDigitChar).dropWhile isSpaceChar).isEmpty) then 0
  else if 2147483647 < sign * digitsToNat (t.takeWhile isDigitChar)
      ∨ sign * digitsToNat (t.takeWhile isDigitChar) < -2147483648 then 0
  else sign * digitsToNat (t.takeWhile isDigitChar)

/-- Embedding of `convertFromStr<int>` (src/source/src/jma_knowledge.cpp
lines 90-102): stringstream extraction of an int — skip leading whitespace,
optional sign, digits — followed by the whitespace-then-eof check; every
failure yields the default value 0. -/
def convertFromStrInt (s : List Char) : Int :=
  match s.dropWhile isSpaceChar with
  | '-' :: r => convertFromStrIntCore (-1) r
  | '+' :: r => convertFromStrIntCore 1 r
  | t => convertFromStrIntCore 1 t

/-- The encoding variants of `Knowledge::EncodeType`; `num` stands for
ENCODE_TYPE_NUM, the not-an-encoding sentinel. -/
inductive EncodeType where
  | eucjp
  | sjis
  | num
deriving DecidableEq

/-- Modelled from the spec: `Knowledge::decodeEncodeType` is declared in
knowledge.h, which is not under src/; it maps the labels of
ENCODE_TYPE_STR_ (src/source/src/knowledge.cpp) to their variants and any
other string to the sentinel. -/
def decodeEncodeType (s : List Char) : EncodeType :=
  if s == "EUC-JP".toList then EncodeType.eucjp
  else if s == "SHIFT-JIS".toList then EncodeType.sjis
  else EncodeType.num

/-- The configuration values read by `JMA_Knowledge::loadDictConfig` from
the dicrc resource. -/
structure DictConfig where
  baseFormOffset : Int
  readFormOffset : Int
  normFormOffset : Int
  userNounPOS : List Char
  configEncodeType : EncodeType
deriving DecidableEq

/-- Value extraction of `JMA_Knowledge::loadDictConfig`
(src/source/src/jma_knowledge.cpp lines 399-420): each entry read from the
map when present (offsets through `convertFromStr<int>`), with the defaults
6, 7, 9, N-USER and the default config charset EUC-JP for absent entries;
an unknown charset string also falls back to the default charset. -/
def configOfMap (m : ConfigMap) : DictConfig where
  baseFormOffset :=
    match getMapValue m "base-form-feature-offset".toList with
    | some v => convertFromStrInt v
    | none => 6
  readFormOffset :=
    match getMapValue m "read-form-feature-offset".toList with
    | some v => convertFromStrInt v
    | none => 7
  normFormOffset :=
    match getMapValue m "norm-form-feature-offset".toList with
    | some v => convertFromStrInt v
    | none => 9
  userNounPOS := (getMapValue m "user-noun-pos".toList).getD "N-USER".toList
  configEncodeType :=
    match getMapValue m "config-charset".toList with
    | some v =>
      if decodeEncodeType v = EncodeType.num then EncodeType.eucjp
      else decodeEncodeType v
    | none => EncodeType.eucjp

/-- Embedding of `JMA_Knowledge::loadDictConfig`
(src/source/src/jma_knowledge.cpp lines 388-431). An absent dicrc resource
(`none`) leaves the map empty; for a present resource the map is whatever
`loadConfig0` filled in — its boolean result only triggers a warning, so a
structural parse error neither aborts nor empties the partially filled
map. -/
def loadDictConfig (dicrc : Option (List (List Char))) : DictConfig :=
  configOfMap
    (match dicrc with
     | none => []
     | some lines => (loadConfig0 [] lines).2)

/-- One morpheme of a decomposed user noun: `Morpheme::lexicon_` and
`Morpheme::readForm_` (empty when no reading is defined). -/
structure Morpheme where
  lexicon : List Char
  readForm : List Char
deriving DecidableEq

/-- The decomposition map `JMA_Knowledge::DecompMap`. -/
abbrev DecompMap := List (List Char × List Morpheme)

/-- The state written by the user-dictionary compiler: the member
`decompMap_`, and the text accumulated in the CSV output stream. -/
structure CState where
  decompMap : DecompMap
  output : List Char
deriving DecidableEq

/-- Accumulator pass of `tokenizeCSV`. -/
def tokenizeCSVGo (cur : List Char) : List Char → List (List Char)
  | [] => [cur.reverse]
  | c :: rest =>
    if c == ',' then
      match rest with
      | [] => [cur.reverse]
      | _ => cur.reverse :: tokenizeCSVGo [] rest
    else tokenizeCSVGo (c :: cur) rest

/-- Embedding of the helper `tokenizeCSV` (src/source/src/jma_knowledge.cpp
lines 110-142): split at commas; the empty string yields no component, and
a trailing comma does not produce a trailing empty component (the index
loop ends at the string size). -/
def tokenizeCSV : List Char → List (List Char)
  | [] => []
  | s => tokenizeCSVGo [] s

/-- Embedding of the helper `isNumber` (src/source/src/jma_knowledge.cpp
lines 149-165): nonempty and all decimal digits. -/
def isNumber (s : List Char) : Bool :=
  !s.isEmpty && s.all isDigitChar

/-- Accumulator pass of `fieldsWs`. -/
def fieldsWsGo (cur : List Char) : List Char → List (List Char)
  | [] => if cur.isEmpty then [] else [cur.reverse]
  | c :: rest =>
    if isSpaceChar c then
      if cur.isEmpty then fieldsWsGo [] rest
      else cur.reverse :: fieldsWsGo [] rest
    else fieldsWsGo (c :: cur) rest

/-- The sequence of whitespace-delimited tokens of a line, as produced by
repeated `istringstream` extraction (`iss >> word`, `iss >> pattern`). -/
def fieldsWs (l : List Char) : List (List Char) := fieldsWsGo [] l

/-- Modelled from the spec: `CTypeTokenizer` (tokenizer.h) is not under
src/. Per the spec the classifier walks the word one code point per step;
a word is therefore a list of code points and one walk of `charCount`
steps consumes that many points, failing (`none`) when the walk runs past
the word's end — at which point `tokenizer.next()` yields the null
terminator, the case the source detects via `if (*p)`. -/
def walkComp : List Char → Nat → Option (List Char × List Char)
  | cs, 0 => some ([], cs)
  | [], _ + 1 => none
  | c :: cs, n + 1 =>
    match walkComp cs n with
    | none => none
    | some (lex, rest) => some (c :: lex, rest)

/-- The two rejection reasons of the decomposition loop of
`JMA_Knowledge::convertTxtToCSV`: a non-digit component
(`isAllNumber = false`), or a character walk past the word's end
(`isValidCharCount = false`). -/
inductive DecompErr where
  | notAllNumber
  | badCharCount
deriving DecidableEq

/-- Embedding of the decomposition loop of `JMA_Knowledge::convertTxtToCSV`
(src/source/src/jma_knowledge.cpp lines 1001-1031): for each pattern
component, check it is numeric, convert it, and walk that many code points
of the word into the morpheme's lexicon; errors abort the loop. Returns
the morpheme list and the code points of the word left unconsumed. -/
def decompLoop : List Char → List (List Char) → Except DecompErr (List Morpheme × List Char)
  | cs, [] => Except.ok ([], cs)
  | cs, comp :: rest =>
    if !(isNumber comp) then Except.error DecompErr.notAllNumber
    else
      match walkComp cs (convertFromStrInt comp).toNat with
      | none => Except.error DecompErr.badCharCount
      | some (lex, cs2) =>
        match decompLoop cs2 rest with
        | Except.error e => Except.error e
        | Except.ok (ms, cs3) => Except.ok (⟨lex, []⟩ :: ms, cs3)

/-- The placeholder fields `,*` emitted by the loop
`for (int i = posSize; i < readFormOffset_; ++i)`. -/
def starFields (n : Int) : List Char :=
  (List.replicate n.toNat ",*".toList).flatten

/-- Body of the `while (getline)` loop of `JMA_Knowledge::convertTxtToCSV`
(src/source/src/jma_knowledge.cpp lines 959-1101), threading the entry
counter and the compiler state. `posStr` is the full-category POS string of
the user noun and `readFormOffset` the configured reading-form offset. A
rejected line leaves the counter and the decomposition map untouched but
keeps whatever was already written to the stream before the rejection (the
source `continue`s after the base record was emitted). -/
def processLine (posStr : List Char) (readFormOffset : Int)
    (acc : Nat × CState) (rawLine : List Char) : Nat × CState :=
  match stripCR rawLine with
  | [] => acc
  | c0 :: cs0 =>
    if c0 == ';' || c0 == '#' then acc
    else
      match fieldsWs (c0 :: cs0) with
      | [] => acc
      | word :: toks =>
        let out1 := acc.2.output ++ word ++ ",-1,-1,-500,".toList ++ posStr
          ++ starFields (readFormOffset - ((tokenizeCSV posStr).length : Int))
        match toks with
        | [] => (acc.1 + 1, ⟨acc.2.decompMap, out1 ++ ",*\n".toList⟩)
        | pattern :: toks2 =>
          match tokenizeCSV pattern with
          | [] => (acc.1, ⟨acc.2.decompMap, out1⟩)
          | comp0 :: comps =>
            if isNumber comp0 then
              match decompLoop word (comp0 :: comps) with
              | Except.error _ => (acc.1, ⟨acc.2.decompMap, out1⟩)
              | Except.ok (ms, restChars) =>
                if !restChars.isEmpty then (acc.1, ⟨acc.2.decompMap, out1⟩)
                else
                  match toks2 with
                  | [] =>
                    (acc.1 + 1, ⟨mapSet acc.2.decompMap word ms, out1 ++ ",*\n".toList⟩)
                  | pattern2 :: _ =>
                    match tokenizeCSV pattern2 with
                    | [] => (acc.1, ⟨acc.2.decompMap, out1⟩)
                    | cv2 =>
                      if cv2.length ≠ ms.length then (acc.1, ⟨acc.2.decompMap, out1⟩)
                      else
                        (acc.1 + 1,
                         ⟨mapSet acc.2.decompMap word
                            (ms.zipWith (fun m r => ⟨m.lexicon, r⟩) cv2),
                          out1 ++ [','] ++ cv2.flatten ++ ['\n']⟩)
            else
              (acc.1 + 1, ⟨acc.2.decompMap, out1 ++ [','] ++ (comp0 :: comps).flatten ++ ['\n']⟩)

/-- The external collaborators of the user-dictionary compilation, passed as
parameters of the embedding: the POS-table lookups (POSTable is not under
src/), the registered user-dictionary files already read as lines (`none`
for a file that cannot be opened), and the results of the dictionary-memory
copy and of the external mecab_dict_index tool. -/
structure UDEnv where
  alphaPOSIndex : List Char → Int
  posFull : Int → Option (List Char)
  files : List (Option (List (List Char)))
  copyOk : Bool
  mecabStatus : Int

/-- Embedding of `JMA_Knowledge::convertTxtToCSV`
(src/source/src/jma_knowledge.cpp lines 921-1104): resolve the user-noun
POS index (failure yields zero entries), render it as a full-category
string (failure yields zero entries), check `assert(posSize > 0)` (`none`
when it fires), skip an unopenable file with zero entries, and otherwise
fold the line loop over the file. -/
def convertTxtToCSV (env : UDEnv) (userNounPOS : List Char) (readFormOffset : Int)
    (file : Option (List (List Char))) (st : CState) : Option (Nat × CState) :=
  if env.alphaPOSIndex userNounPOS = -1 then some (0, st)
  else
    match env.posFull (env.alphaPOSIndex userNounPOS) with
    | none => some (0, st)
    | some posStr =>
      if (tokenizeCSV posStr).length = 0 then none
      else
        match file with
        | none => some (0, st)
        | some lines => some (lines.foldl (processLine posStr readFormOffset) (0, st))

/-- The loop `for (i...) entryCount += convertTxtToCSV(...)` of
`JMA_Knowledge::compileUserDict`, threading the state through the files and
summing the per-file entry counts. -/
def convertFiles (env : UDEnv) (userNounPOS : List Char) (readFormOffset : Int)
    (st : CState) : List (Option (List (List Char))) → Option (Nat × CState)
  | [] => some (0, st)
  | f :: fs =>
    match convertTxtToCSV env userNounPOS readFormOffset f st with
    | none => none
    | some (n, st2) =>
      match convertFiles env userNounPOS readFormOffset st2 fs with
      | none => none
      | some (n2, st3) => some (n + n2, st3)

/-- Embedding of `JMA_Knowledge::compileUserDict`
(src/source/src/jma_knowledge.cpp lines 202-298): fail outright with no
registered user dictionary; otherwise clear the decomposition map, convert
every registered file, and fail when the total entry count is zero, when
copying the CSV text into the dictionary memory fails, or when the external
compile returns a non-zero status. Returns the success flag, the total
entry count, and the final compiler state. -/
def compileUserDict (env : UDEnv) (userNounPOS : List Char) (readFormOffset : Int)
    (st : CState) : Option (Bool × Nat × CState) :=
  if env.files.isEmpty then some (false, 0, st)
  else
    match convertFiles env userNounPOS readFormOffset ⟨[], st.output⟩ env.files with
    | none => none
    | some (n, st2) =>
      if n = 0 then some (false, n, st2)
      else if !env.copyOk then some (false, n, st2)
      else if env.mecabStatus ≠ 0 then some (false, n, st2)
      else some (true, n, st2)

/-- Success flags of the resource loads performed by
`JMA_Knowledge::loadDict`: the archive open, the POS table load, and the
soft loads of the POS-combination rules and of the kana, width and case
tables (POSTable and CharTable are external to src/; only their success is
observed by loadDict), plus the final MeCab tagger creation probe. -/
structure LoadFlags where
  openOk : Bool
  posOk : Bool
  combineOk : Bool
  kanaOk : Bool
  widthOk : Bool
  caseOk : Bool
  taggerOk : Bool
deriving DecidableEq

/-- Mapping table content, source token to target token. -/
abbrev CharMap := List (List Char × List Char)

/-- Modelled from the spec: CharTable::loadConfig is not under src/; per the
spec a missing optional table degrades to no mapping defined, while a
successful load yields the file's mapping (threaded as a parameter). -/
def loadCharTable (ok : Bool) (content : CharMap) : CharMap :=
  if ok then content else []

/-- The members of JMA_Knowledge observable through this embedding: the
dicrc configuration, the three optional conversion tables, and the
user-dictionary compiler state. On construction the offsets are zero, the
POS label empty and the charset the default (constructor at
src/source/src/jma_knowledge.cpp lines 179-185). -/
structure KState where
  config : DictConfig
  kanaTable : CharMap
  widthTable : CharMap
  caseTable : CharMap
  cstate : CState
deriving DecidableEq

/-- Embedding of `JMA_Knowledge::loadDict`
(src/source/src/jma_knowledge.cpp lines 433-513): open the archive (failure
returns 0), load the dicrc configuration (never fails), load the POS table
(failure returns 0), load the combination rules and the kana, width and
case tables (failures only warn), compile the user dictionaries when any is
registered (failure returns 0, assertion propagates), and probe tagger
creation (failure returns 0). Returns the int result and the state. -/
def loadDict (fl : LoadFlags) (dicrc : Option (List (List Char)))
    (kanaContent widthContent caseContent : CharMap)
    (env : UDEnv) (st : KState) : Option (Nat × KState) :=
  if !fl.openOk then some (0, st)
  else
    let st1 : KState := { st with config := loadDictConfig dicrc }
    if !fl.posOk then some (0, st1)
    else
      let st2 : KState := { st1 with
        kanaTable := loadCharTable fl.kanaOk kanaContent,
        widthTable := loadCharTable fl.widthOk widthContent,
        caseTable := loadCharTable fl.caseOk caseContent }
      if env.files.isEmpty then
        if !fl.taggerOk then some (0, st2) else some (1, st2)
      else
        match compileUserDict env st2.config.userNounPOS st2.config.readFormOffset st2.cstate with
        | none => none
        | some (ok, _n, cst) =>
          let st3 : KState := { st2 with cstate := cst }
          if !ok then some (0, st3)
          else if !fl.taggerOk then some (0, st3) else some (1, st3)

/-- A dicrc whose first line is a valid entry and whose second line is
structurally malformed (no equal sign). -/
def dicrcBad : List (List Char) :=
  ["base-form-feature-offset=3".toList, "this line has no equal sign".toList]

/-- External environment with no registered user dictionary. -/
def envNoUser : UDEnv :=
  { alphaPOSIndex := fun _ => -1, posFull := fun _ => none,
    files := [], copyOk := true, mecabStatus := 0 }

/-- All resource loads succeed. -/
def flagsAll : LoadFlags := ⟨true, true, true, true, true, true, true⟩

/-- The freshly constructed knowledge state. -/
def kstate0 : KState :=
  { config := ⟨0, 0, 0, [], EncodeType.eucjp⟩,
    kanaTable := [], widthTable := [], caseTable := [], cstate := ⟨[], []⟩ }

/-- All resource loads succeed except the POS table. -/
def flagsNoPos : LoadFlags := ⟨true, false, true, true, true, true, true⟩

/-- All resource loads succeed except the kana mapping table. -/
def flagsNoKana : LoadFlags := ⟨true, true, true, false, true, true, true⟩

/-- External environment with one registered user dictionary holding the
single line word1, a resolvable user-noun POS and succeeding external
steps. -/
def envOneEntry : UDEnv :=
  { alphaPOSIndex := fun _ => 5, posFull := fun _ => some "N".toList,
    files := [some ["word1".toList]], copyOk := true, mecabStatus := 0 }

/-- Contribution of one user-dictionary line to the entry counter (0 or 1),
read off the line loop run on a zeroed accumulator: 1 exactly when the line
runs to the final `++count`, emitting a complete CSV record. -/
def lineCount (posStr : List Char) (readFormOffset : Int) (l : List Char) : Nat :=
  (processLine posStr readFormOffset (0, ⟨[], []⟩) l).1

theorem occupiedLoop_step (val ret : Nat) (h : val &&& 0xffffff00 ≠ 0) :
    occupiedLoop val ret = occupiedLoop (val >>> 4) (ret + 1) := by
  conv_lhs => rw [occupiedLoop.eq_def]
  exact dif_pos h

theorem occupiedLoop_done (val ret : Nat) (h : ¬ val &&& 0xffffff00 ≠ 0) :
    occupiedLoop val ret = ret := by
  conv_lhs => rw [occupiedLoop.eq_def]
  exact dif_neg h

theorem occupiedLoop_val_4096 : occupiedLoop 4096 1 = 3 := by
  have e1 := occupiedLoop_step 4096 1 (by decide)
  have e2 := occupiedLoop_step 256 2 (by decide)
  have e3 := occupiedLoop_done 16 3 (by decide)
  rw [show (4096 : Nat) >>> 4 = 256 by decide] at e1
  rw [show (256 : Nat) >>> 4 = 16 by decide] at e2
  norm_num at e1 e2
  rw [e1, e2, e3]

theorem occupiedLoop_val_256 : occupiedLoop 256 1 = 2 := by
  have e1 := occupiedLoop_step 256 1 (by decide)
  have e2 := occupiedLoop_done 16 2 (by decide)
  rw [show (256 : Nat) >>> 4 = 16 by decide] at e1
  norm_num at e1
  rw [e1, e2]

theorem occupiedLoop_val_65536 : occupiedLoop 65536 1 = 4 := by
  have e1 := occupiedLoop_step 65536 1 (by decide)
  have e2 := occupiedLoop_step 4096 2 (by decide)
  have e3 := occupiedLoop_step 256 3 (by decide)
  have e4 := occupiedLoop_done 16 4 (by decide)
  rw [show (65536 : Nat) >>> 4 = 4096 by decide] at e1
  rw [show (4096 : Nat) >>> 4 = 256 by decide] at e2
  rw [show (256 : Nat) >>> 4 = 16 by decide] at e3
  norm_num at e1 e2 e3
  rw [e1, e2, e3, e4]

/-- C1: loading the sentence-separator configuration twice does not replace
the first file's separators. After loading a file whose single line is the
byte 46 (the full stop) and then a file whose single line is the byte 33
(the exclamation mark), the separator sets hold the union of both files,
and `isSentenceSeparator` still answers true for the byte 46 even though it
occurs only in the first (superseded) file. This contradicts the claim (and
the attention note on `loadSentenceSeparatorConfig` in jma_knowledge.h,
which documents that separators previously loaded are removed): the loader
at src/source/src/jma_knowledge.cpp lines 877-919 only inserts and never
clears. -/
theorem loadSentenceSeparatorConfig_accumulates :
    (loadSentenceSeparatorConfig getByteCountSJIS SepSets.empty [[46]]).bind
        (fun st => loadSentenceSeparatorConfig getByteCountSJIS st [[33]])
      = some ⟨{33, 46}, ∅, ∅, ∅⟩ ∧
    ((loadSentenceSeparatorConfig getByteCountSJIS SepSets.empty [[46]]).bind
        (fun st => loadSentenceSeparatorConfig getByteCountSJIS st [[33]])).map
        (fun st => isSentenceSeparator getByteCountSJIS st [46])
      = some (SepOutcome.result true) := by
  constructor <;> decide

/-- C2: the occupied-byte computation of `addSentenceSeparator` is not the
smallest width that fits the value. The loop of `getOccupiedBytes` shifts
by four bits (a nibble) instead of eight per iteration, so for the value
0x1000 — which fits in two bytes — it computes width 3 and
`addSentenceSeparator` files the value in the three-byte set; and its
assertion `ret > 0 && ret < 4` fires for 0x10000 even though that value
occupies only three bytes (the claim allows fatality only above four
bytes). The width 2 for 0x100 is coincidentally right. -/
theorem getOccupiedBytes_nibble_shift_bug :
    getOccupiedBytes 4096 = some 3 ∧ minOccupiedBytes 4096 = 2 ∧
    getOccupiedBytes 256 = some 2 ∧ minOccupiedBytes 256 = 2 ∧
    getOccupiedBytes 65536 = none ∧ minOccupiedBytes 65536 = 3 ∧
    addSentenceSeparator SepSets.empty 4096 = some ⟨∅, ∅, {4096}, ∅⟩ ∧
    addSentenceSeparator SepSets.empty 65536 = none := by
  refine ⟨?_, by decide, ?_, by decide, ?_, by decide, ?_, ?_⟩
  · simp [getOccupiedBytes, occupiedLoop_val_4096]
  · simp [getOccupiedBytes, occupiedLoop_val_256]
  · simp [getOccupiedBytes, occupiedLoop_val_65536]
  · simp [addSentenceSeparator, getOccupiedBytes, occupiedLoop_val_4096]
    decide
  · simp [addSentenceSeparator, getOccupiedBytes, occupiedLoop_val_65536]

/-- C9 counterexample: the byte string consisting of the single byte 0x81 (a
Shift-JIS lead byte directly followed by the null terminator) has a nonzero
first byte, yet the classifier neither returns 1 nor 2: it dies on its own
`assert(uc[1])`, and `isSentenceSeparator` ends in that classifier
assertion rather than in a membership answer. -/
theorem getByteCountSJIS_lone_lead_byte :
    (129 : Nat) ≠ 0 ∧
    getByteCountSJIS [129] = none ∧
    getByteCountSJIS [129] ≠ some 1 ∧ getByteCountSJIS [129] ≠ some 2 ∧
    isSentenceSeparator getByteCountSJIS SepSets.empty [129] = SepOutcome.ctypeFatal := by
  decide

/-- C9 (amended): under the Shift-JIS classifier, every byte string whose
first byte is nonzero and which does not stop right after a multi-byte lead
byte (at least 0x80) gets byte count 1 or 2, so `isSentenceSeparator`
returns a membership answer and never reaches its fatal `default` branch;
for a pointer to the null terminator the byte count is 0 and the fatal
`default` branch of `isSentenceSeparator` is reached. -/
theorem getByteCountSJIS_one_or_two (bs : List Nat)
    (h0 : bs.getD 0 0 ≠ 0) (h1 : 128 ≤ bs.getD 0 0 → bs.getD 1 0 ≠ 0) :
    getByteCountSJIS bs = some 1 ∨ getByteCountSJIS bs = some 2 := by
  by_cases hlt : bs.getD 0 0 < 128
  · left
    unfold getByteCountSJIS
    rw [if_neg h0, if_pos hlt]
  · right
    unfold getByteCountSJIS
    rw [if_neg h0, if_neg hlt, if_neg (h1 (Nat.le_of_not_lt hlt))]

theorem isSentenceSeparator_sjis_total (bs cs : List Nat) (st : SepSets)
    (h0 : bs.getD 0 0 ≠ 0) (h1 : 128 ≤ bs.getD 0 0 → bs.getD 1 0 ≠ 0)
    (hcs : cs.getD 0 0 = 0) :
    (getByteCountSJIS bs = some 1 ∨ getByteCountSJIS bs = some 2) ∧
    isSentenceSeparator getByteCountSJIS st bs ≠ SepOutcome.lenFatal ∧
    isSentenceSeparator getByteCountSJIS st bs ≠ SepOutcome.ctypeFatal ∧
    getByteCountSJIS cs = some 0 ∧
    isSentenceSeparator getByteCountSJIS st cs = SepOutcome.lenFatal := by
  have hbc : getByteCountSJIS cs = some 0 := by
    unfold getByteCountSJIS
    rw [if_pos hcs]
  refine ⟨getByteCountSJIS_one_or_two bs h0 h1, ?_, ?_, hbc,
    by simp [isSentenceSeparator, hbc]⟩ <;>
  · rcases getByteCountSJIS_one_or_two bs h0 h1 with h | h <;>
      simp [isSentenceSeparator, h]

/-- Witness for `isSentenceSeparator_sjis_total` at the one-byte string 46,
the empty byte string and the empty separator sets. -/
theorem isSentenceSeparator_sjis_total_witness :
    (getByteCountSJIS [46] = some 1 ∨ getByteCountSJIS [46] = some 2) ∧
    isSentenceSeparator getByteCountSJIS SepSets.empty [46] ≠ SepOutcome.lenFatal ∧
    isSentenceSeparator getByteCountSJIS SepSets.empty [46] ≠ SepOutcome.ctypeFatal ∧
    getByteCountSJIS [] = some 0 ∧
    isSentenceSeparator getByteCountSJIS SepSets.empty [] = SepOutcome.lenFatal :=
  isSentenceSeparator_sjis_total [46] [] SepSets.empty (by decide) (by decide) (by decide)

/-- C10: `isKeywordPOS` accepts every POS index when the keyword-POS set is
empty — as it is on a freshly constructed knowledge instance, which no load
operation in the sources populates — and exactly the members when the set is
non-empty. -/
theorem isKeywordPOS_spec (s : Finset Int) (pos q : Int) (hs : s ≠ ∅) :
    isKeywordPOS keywordPOSSetInit q = true ∧
    isKeywordPOS ∅ q = true ∧
    (isKeywordPOS s pos = true ↔ pos ∈ s) := by
  refine ⟨by simp [isKeywordPOS, keywordPOSSetInit], by simp [isKeywordPOS], ?_⟩
  simp [isKeywordPOS, hs]

/-- Witness for `isKeywordPOS_spec` at the set containing 3, the member 3
and the non-member 7. -/
theorem isKeywordPOS_spec_witness :
    isKeywordPOS keywordPOSSetInit 7 = true ∧
    isKeywordPOS ∅ 7 = true ∧
    (isKeywordPOS {3} 3 = true ↔ (3 : Int) ∈ ({3} : Finset Int)) :=
  isKeywordPOS_spec {3} 3 7 (by decide)

theorem walkComp_spec (cs : List Char) (n : Nat) :
    walkComp cs n = if n ≤ cs.length then some (cs.take n, cs.drop n) else none := by
  induction cs generalizing n with
  | nil =>
    cases n with
    | zero => simp [walkComp]
    | succ m => simp [walkComp]
  | cons c t ih =>
    cases n with
    | zero => simp [walkComp]
    | succ m =>
      simp only [walkComp, ih, List.length_cons, List.take_succ_cons, List.drop_succ_cons,
        Nat.succ_le_succ_iff]
      by_cases h : m ≤ t.length <;> simp [h]

theorem decompLoop_ok_consumes (comps : List (List Char)) (cs : List Char)
    (ms : List Morpheme) (rest : List Char)
    (h : decompLoop cs comps = Except.ok (ms, rest)) :
    cs.length = (comps.map (fun c => (convertFromStrInt c).toNat)).sum + rest.length := by
  induction comps generalizing cs ms with
  | nil =>
    simp [decompLoop] at h
    rw [h.2]
    simp
  | cons comp t ih =>
    simp only [decompLoop] at h
    split at h
    · exact absurd h (by simp)
    · rw [walkComp_spec] at h
      by_cases hle : (convertFromStrInt comp).toNat ≤ cs.length
      · rw [if_pos hle] at h
        dsimp only at h
        cases hd : decompLoop (cs.drop (convertFromStrInt comp).toNat) t with
        | error e => rw [hd] at h; simp at h
        | ok p =>
          obtain ⟨ms2, rest2⟩ := p
          rw [hd] at h
          simp only [Except.ok.injEq, Prod.mk.injEq] at h
          have hlen2 := ih (cs.drop (convertFromStrInt comp).toNat) ms2 (h.2 ▸ hd)
          simp only [List.length_drop] at hlen2
          simp only [List.map_cons, List.sum_cons]
          omega
      · rw [if_neg hle] at h
        simp at h

theorem processLine_count_shift (posStr : List Char) (roff : Int) (n : Nat) (st : CState)
    (l : List Char) :
    (processLine posStr roff (n, st) l).1 = n + lineCount posStr roff l := by
  unfold lineCount
  unfold processLine
  repeat' split <;> try simp

theorem lineCount_le_one (posStr : List Char) (roff : Int) (l : List Char) :
    lineCount posStr roff l ≤ 1 := by
  unfold lineCount
  unfold processLine
  repeat' split <;> try simp

theorem foldl_processLine_count (posStr : List Char) (roff : Int) (lines : List (List Char)) :
    ∀ (n : Nat) (st : CState),
      (lines.foldl (processLine posStr roff) (n, st)).1
        = n + (lines.filter (fun l => lineCount posStr roff l == 1)).length := by
  induction lines with
  | nil =>
    intro n st
    simp
  | cons l t ih =>
    intro n st
    rw [List.foldl_cons]
    rcases hpl : processLine posStr roff (n, st) l with ⟨n2, st2⟩
    rw [ih n2 st2]
    have h1 : n2 = n + lineCount posStr roff l := by
      have h := processLine_count_shift posStr roff n st l
      rw [hpl] at h
      exact h
    have h2 := lineCount_le_one posStr roff l
    rw [List.filter_cons]
    by_cases hc : lineCount posStr roff l = 1
    · simp [hc] at h1 ⊢
      omega
    · have h0 : lineCount posStr roff l = 0 := by omega
      simp [h0] at h1 ⊢
      omega

theorem loadConfig0_append (xs ys : List (List Char)) (m : ConfigMap)
    (h : (loadConfig0 m xs).1 = true) :
    loadConfig0 m (xs ++ ys) = loadConfig0 (loadConfig0 m xs).2 ys := by
  induction xs generalizing m with
  | nil => rfl
  | cons line rest ih =>
    rw [List.cons_append]
    cases hp : parseConfigLine line with
    | skip =>
      have h2 : (loadConfig0 m rest).1 = true := by
        simpa [loadConfig0, hp] using h
      simp [loadConfig0, hp, ih m h2]
    | bad =>
      exfalso
      simp [loadConfig0, hp] at h
    | kv k v =>
      have h2 : (loadConfig0 (mapSet m k v) rest).1 = true := by
        simpa [loadConfig0, hp] using h
      simp [loadConfig0, hp, ih (mapSet m k v) h2]

theorem loadConfig0_bad_cons (m : ConfigMap) (line : List Char) (rest : List (List Char))
    (h : parseConfigLine line = LineParse.bad) :
    loadConfig0 m (line :: rest) = (false, m) := by
  simp [loadConfig0, h]

/-- C4 counterexample: parsing the two-line file a=1 followed by the line
bad (which lacks an equal sign) returns false, yet the caller-supplied map
is not left empty: it holds the pair from the first, valid line, so a
partial mapping is returned through the out-parameter. -/
theorem loadConfig0_partial_counterexample :
    loadConfig0 [] ["a=1".toList, "bad".toList] = (false, [("a".toList, "1".toList)]) ∧
    getMapValue (loadConfig0 [] ["a=1".toList, "bad".toList]).2 "a".toList
      = some "1".toList := by
  constructor <;> decide

/-- C4 (amended): for every configuration file containing a non-comment,
non-blank line that lacks an equal sign, the parse of that file fails
(false is returned) no matter how many valid key=value lines precede the
offending line — but the pairs of those preceding lines remain in the
caller-supplied map, i.e. a partial mapping is left in the out-parameter
rather than none. -/
theorem loadConfig0_fail_keeps_parsed (m : ConfigMap) (pre rest : List (List Char))
    (bad : List Char)
    (hpre : (loadConfig0 m pre).1 = true)
    (hbad : parseConfigLine bad = LineParse.bad) :
    loadConfig0 m (pre ++ bad :: rest) = (false, (loadConfig0 m pre).2) := by
  rw [loadConfig0_append pre (bad :: rest) m hpre, loadConfig0_bad_cons _ _ _ hbad]

/-- Witness for `loadConfig0_fail_keeps_parsed` at a one-entry valid run
followed by a bad line and one further line. -/
theorem loadConfig0_fail_keeps_parsed_witness :
    loadConfig0 [] (["a=1".toList] ++ "bad".toList :: ["c=2".toList])
      = (false, (loadConfig0 [] ["a=1".toList]).2) :=
  loadConfig0_fail_keeps_parsed [] ["a=1".toList] ["c=2".toList] "bad".toList
    (by decide) (by decide)

/-- C3 counterexample: with a present but structurally malformed dicrc (its
second line lacks an equal sign, so loadConfig0 reports failure), the
knowledge load does NOT fail: with every other resource fine and no user
dictionary, loadDict returns 1, and the configuration even keeps the value
3 parsed from the line preceding the malformed one (not the default 6). -/
theorem loadDict_malformed_dicrc_counterexample :
    (loadConfig0 [] dicrcBad).1 = false ∧
    loadDict flagsAll (some dicrcBad) [] [] [] envNoUser kstate0
      = some (1, { config := ⟨3, 7, 9, "N-USER".toList, EncodeType.eucjp⟩,
                   kanaTable := [], widthTable := [], caseTable := [],
                   cstate := ⟨[], []⟩ }) := by
  constructor <;> decide

/-- C3 (amended): a structural error in a present dicrc does not fail the
knowledge load: the load result is decided solely by the archive open, the
POS-table load and the tagger probe (with no user dictionary registered),
whatever dicrc holds; an absent dicrc yields the defaults 6/7/9, N-USER
and the default config charset; and a malformed dicrc is read as the
partial map of the key=value lines preceding the offending line, with
defaults for the keys absent from it. -/
theorem loadDictConfig_soft_fail (fl : LoadFlags) (dicrc : Option (List (List Char)))
    (kc wc cc : CharMap) (env : UDEnv) (st : KState)
    (pre rest : List (List Char)) (bad : List Char)
    (hf : env.files = [])
    (hpre : (loadConfig0 [] pre).1 = true)
    (hbad : parseConfigLine bad = LineParse.bad) :
    (loadDict fl dicrc kc wc cc env st).map Prod.fst
      = some (if fl.openOk && fl.posOk && fl.taggerOk then 1 else 0) ∧
    loadDictConfig none = ⟨6, 7, 9, "N-USER".toList, EncodeType.eucjp⟩ ∧
    loadDictConfig (some (pre ++ bad :: rest)) = configOfMap (loadConfig0 [] pre).2 := by
  refine ⟨?_, by decide, ?_⟩
  · have hfe : env.files.isEmpty = true := by simp [hf]
    obtain ⟨o, p, cb, kn, w, c, t⟩ := fl
    cases o <;> cases p <;> cases t <;> simp [loadDict, hfe]
  · have hx : loadConfig0 [] (pre ++ bad :: rest) = (false, (loadConfig0 [] pre).2) := by
      rw [loadConfig0_append pre (bad :: rest) [] hpre, loadConfig0_bad_cons _ _ _ hbad]
    simp [loadDictConfig, hx]

/-- C8: loadDict returns failure (0) whenever the POS table fails to load,
whereas a failing kana-mapping load only warns: the overall load still
returns success (1) and the kana table is left empty. -/
theorem loadDict_pos_hard_kana_soft (fl fl2 : LoadFlags) (dicrc : Option (List (List Char)))
    (kc wc cc : CharMap) (env : UDEnv) (st : KState)
    (ho : fl.openOk = true) (hp : fl.posOk = false)
    (h2o : fl2.openOk = true) (h2p : fl2.posOk = true) (h2k : fl2.kanaOk = false)
    (h2t : fl2.taggerOk = true) (hf : env.files = []) :
    (loadDict fl dicrc kc wc cc env st).map Prod.fst = some 0 ∧
    (loadDict fl2 dicrc kc wc cc env st).map Prod.fst = some 1 ∧
    (loadDict fl2 dicrc kc wc cc env st).map (fun p => p.2.kanaTable) = some [] := by
  have hfe : env.files.isEmpty = true := by simp [hf]
  refine ⟨?_, ?_, ?_⟩
  · simp [loadDict, ho, hp]
  · simp [loadDict, h2o, h2p, h2t, hfe]
  · simp [loadDict, h2o, h2p, h2t, hfe, loadCharTable, h2k]

/-- C7: compiling the registered user dictionaries fails when the total
number of entries converted across all supplied files is zero, and
succeeds — when the external copy and compile steps succeed — exactly when
at least one entry was converted, returning that total; and the per-file
conversion returns exactly the number of lines it successfully emitted as
complete CSV records (the lines whose `lineCount` is 1). -/
theorem compileUserDict_aggregate (env : UDEnv) (u : List Char) (r : Int)
    (st st2 st3 : CState) (n : Nat) (lines : List (List Char)) (posStr : List Char)
    (hcv : convertFiles env u r ⟨[], st.output⟩ env.files = some (n, st2))
    (hidx : env.alphaPOSIndex u ≠ -1)
    (hpos : env.posFull (env.alphaPOSIndex u) = some posStr)
    (hps : tokenizeCSV posStr ≠ []) :
    (n = 0 → (compileUserDict env u r st).map (fun x => x.1) = some false) ∧
    (1 ≤ n → env.copyOk = true → env.mecabStatus = 0 →
      (compileUserDict env u r st).map (fun x => (x.1, x.2.1)) = some (true, n)) ∧
    convertTxtToCSV env u r (some lines) st3
      = some ((lines.filter (fun l => lineCount posStr r l == 1)).length,
              (lines.foldl (processLine posStr r) (0, st3)).2) := by
  refine ⟨?_, ?_, ?_⟩
  · intro hn0
    by_cases hfe : env.files.isEmpty
    · simp [compileUserDict, hfe]
    · simp [compileUserDict, hfe, hcv, hn0]
  · intro hn1 hcp hms
    by_cases hfe : env.files.isEmpty
    · rw [List.isEmpty_iff] at hfe
      rw [hfe] at hcv
      simp [convertFiles] at hcv
      omega
    · have hn0 : ¬ n = 0 := by omega
      simp [compileUserDict, hfe, hcv, hn0, hcp, hms]
  · have hfold := foldl_processLine_count posStr r lines 0 st3
    rcases hfd : lines.foldl (processLine posStr r) (0, st3) with ⟨cnt, stf⟩
    rw [hfd] at hfold
    simp at hfold
    simp [convertTxtToCSV, hidx, hpos, hps, hfd, hfold]

/-- C5: a user-dictionary line whose all-numeric decomposition pattern has
character counts that do not exactly exhaust the surface word's code
points (the counts sum to fewer code points than the word contains, or a
character walk runs past the word's end — i.e. the sum differs from the
word's length) is rejected: it contributes no entry to the returned count
and no DecompositionMap entry is created for that word. -/
theorem processLine_rejects_nonexhaustive (posStr : List Char) (roff : Int)
    (acc : Nat × CState) (rawLine word pattern : List Char)
    (hw : (fieldsWs (stripCR rawLine))[0]? = some word)
    (hp : (fieldsWs (stripCR rawLine))[1]? = some pattern)
    (hnum : ∀ comp ∈ tokenizeCSV pattern, isNumber comp = true)
    (hne : tokenizeCSV pattern ≠ [])
    (hsum : ((tokenizeCSV pattern).map (fun c => (convertFromStrInt c).toNat)).sum
      ≠ word.length) :
    (processLine posStr roff acc rawLine).1 = acc.1 ∧
    (processLine posStr roff acc rawLine).2.decompMap = acc.2.decompMap := by
  obtain ⟨n, st⟩ := acc
  rcases hsc : stripCR rawLine with _ | ⟨c0, cs0⟩
  · simp [processLine, hsc]
  · rw [hsc] at hw hp
    by_cases hcm : (c0 == ';' || c0 == '#') = true
    · simp [processLine, hsc, hcm]
    · rcases hfw : fieldsWs (c0 :: cs0) with _ | ⟨w1, toks⟩
      · rw [hfw] at hw
        simp at hw
      · rw [hfw] at hw hp
        obtain rfl : w1 = word := by simpa using hw
        rcases toks with _ | ⟨p1, toks2⟩
        · simp at hp
        · obtain rfl : p1 = pattern := by simpa using hp
          rcases htk : tokenizeCSV p1 with _ | ⟨comp0, comps⟩
          · exact absurd htk hne
          · have hc0 : isNumber comp0 = true := by
              refine hnum comp0 ?_
              rw [htk]
              exact List.mem_cons_self comp0 comps
            rcases hdl : decompLoop w1 (comp0 :: comps) with e | ⟨ms, restChars⟩
            · simp [processLine, hsc, hcm, hfw, htk, hc0, hdl]
            · have hlen := decompLoop_ok_consumes (comp0 :: comps) w1 ms restChars hdl
              rw [htk] at hsum
              have hrne : restChars ≠ [] := by
                intro h0
                rw [h0] at hlen
                simp at hlen
                exact hsum hlen.symm
              simp [processLine, hsc, hcm, hfw, htk, hc0, hdl, hrne]

/-- Witness for `processLine_rejects_nonexhaustive` at the line with word
abc and pattern 2,3: the counts sum to 5 but the word has 3 code points,
so the counter stays 0 and the decomposition map stays empty. -/
theorem processLine_rejects_nonexhaustive_witness :
    (processLine "N".toList 7 (0, ⟨[], []⟩) "abc 2,3".toList).1 = 0 ∧
    (processLine "N".toList 7 (0, ⟨[], []⟩) "abc 2,3".toList).2.decompMap = [] :=
  processLine_rejects_nonexhaustive "N".toList 7 (0, ⟨[], []⟩) "abc 2,3".toList
    "abc".toList "2,3".toList (by decide) (by decide) (by decide) (by decide) (by decide)

/-- C6: converting the user-dictionary line with surface word 本田総一郎,
decomposition pattern 2,3 and reading pattern ホンダ,ソウイチロウ (with the
full-category user-noun POS 名詞,ユーザ and reading-form offset 7) counts
one entry, stores a DecompositionMap entry of exactly two morphemes —
lexicon 本田 with reading ホンダ, and lexicon 総一郎 with reading
ソウイチロウ — and the emitted CSV record's reading-form field (the comma
field at index 4 + 7 of the record) is the concatenation
ホンダソウイチロウ. -/
theorem convertTxtToCSV_decomposition_example :
    processLine "名詞,ユーザ".toList 7 (0, ⟨[], []⟩)
        "本田総一郎 2,3 ホンダ,ソウイチロウ".toList
      = (1, ⟨[("本田総一郎".toList,
               [⟨"本田".toList, "ホンダ".toList⟩, ⟨"総一郎".toList, "ソウイチロウ".toList⟩])],
             "本田総一郎,-1,-1,-500,名詞,ユーザ,*,*,*,*,*,ホンダソウイチロウ\n".toList⟩) ∧
    (tokenizeCSV ((processLine "名詞,ユーザ".toList 7 (0, ⟨[], []⟩)
          "本田総一郎 2,3 ホンダ,ソウイチロウ".toList).2.output.takeWhile
        (fun c => !(c == '\n'))))[11]?
      = some "ホンダソウイチロウ".toList := by
  constructor <;> decide

/-- Witness for `compileUserDict_aggregate` at a single registered file with
the single valid line word1: one entry is converted, the compilation
succeeds, and the per-file conversion reports exactly one emitted record. -/
theorem compileUserDict_aggregate_witness :
    ((1 : Nat) = 0 →
      (compileUserDict envOneEntry "N-USER".toList 7 ⟨[], []⟩).map (fun x => x.1)
        = some false) ∧
    (1 ≤ (1 : Nat) → envOneEntry.copyOk = true → envOneEntry.mecabStatus = 0 →
      (compileUserDict envOneEntry "N-USER".toList 7 ⟨[], []⟩).map (fun x => (x.1, x.2.1))
        = some (true, 1)) ∧
    convertTxtToCSV envOneEntry "N-USER".toList 7 (some ["word1".toList]) ⟨[], []⟩
      = some (((["word1".toList]).filter (fun l => lineCount "N".toList 7 l == 1)).length,
              ((["word1".toList]).foldl (processLine "N".toList 7) (0, ⟨[], []⟩)).2) :=
  compileUserDict_aggregate envOneEntry "N-USER".toList 7 ⟨[], []⟩
    ⟨[], "word1,-1,-1,-500,N,*,*,*,*,*,*,*\n".toList⟩ ⟨[], []⟩ 1 ["word1".toList] "N".toList
    (by decide) (by decide) (by decide) (by decide)

/-- Witness for `loadDictConfig_soft_fail` at all-succeeding flags, the
malformed dicrc, and the one-good-line-then-bad-line split of it. -/
theorem loadDictConfig_soft_fail_witness :
    (loadDict flagsAll (some dicrcBad) [] [] [] envNoUser kstate0).map Prod.fst
      = some (if flagsAll.openOk && flagsAll.posOk && flagsAll.taggerOk then 1 else 0) ∧
    loadDictConfig none = ⟨6, 7, 9, "N-USER".toList, EncodeType.eucjp⟩ ∧
    loadDictConfig (some (["base-form-feature-offset=3".toList]
        ++ "this line has no equal sign".toList :: []))
      = configOfMap (loadConfig0 [] ["base-form-feature-offset=3".toList]).2 :=
  loadDictConfig_soft_fail flagsAll (some dicrcBad) [] [] [] envNoUser kstate0
    ["base-form-feature-offset=3".toList] [] "this line has no equal sign".toList
    rfl (by decide) (by decide)

/-- Witness for `loadDict_pos_hard_kana_soft` at the two flag fixtures, no
dicrc and no user dictionary. -/
theorem loadDict_pos_hard_kana_soft_witness :
    (loadDict flagsNoPos none [] [] [] envNoUser kstate0).map Prod.fst = some 0 ∧
    (loadDict flagsNoKana none [] [] [] envNoUser kstate0).map Prod.fst = some 1 ∧
    (loadDict flagsNoKana none [] [] [] envNoUser kstate0).map (fun p => p.2.kanaTable)
      = some [] :=
  loadDict_pos_hard_kana_soft flagsNoPos flagsNoKana none [] [] [] envNoUser kstate0
    rfl rfl rfl rfl rfl rfl rfl

end IJMA
